import Mathlib

/-
  Verification development for the DHALSIM-SE supervisory-control core.

  Shallow embedding of:
  - src/physical/controls_parser.py   (parse_controls_from_inp and its regex)
  - src/config/runtime_plc_builder.py (build_runtime_plc_config)
  - src/ics_network/scada_node.py     (ScadaServer)
  - src/ics_network/plc_node.py       (PlcLogic.get_actuator_effect)

  Modelling conventions:
  - Python floats are modelled as exact rationals (Rat); only order comparisons
    and equality of decimal literals matter to the properties proved here.
  - Python dicts are modelled as association lists with Python's dict
    semantics: lookup finds the (unique) key, assignment replaces in place
    keeping the entry's position, otherwise appends; `pop` removes the entry.
  - A document is the list of its lines (the file has already been split).
  - A Python function that can raise is modelled with Except/Option.
-/

namespace DhalsimSE

/-! ## Python-dict association lists -/

/-- Python `d.get(k)`: value at key `k`, if present. -/
def dlookup {α : Type} : List (String × α) → String → Option α
  | [], _ => none
  | (k', v) :: rest, k => if k' = k then some v else dlookup rest k

/-- Python `d[k] = v`: replace in place if the key exists, else append. -/
def dinsert {α : Type} : List (String × α) → String → α → List (String × α)
  | [], k, v => [(k, v)]
  | (k', v') :: rest, k, v =>
    if k' = k then (k, v) :: rest else (k', v') :: dinsert rest k v

/-- Python `d.pop(k, None)`: drop the entry at key `k`, if present. -/
def derase {α : Type} : List (String × α) → String → List (String × α)
  | [], _ => []
  | (k', v') :: rest, k => if k' = k then rest else (k', v') :: derase rest k

/-! ## Python string helpers (char-list based, so they evaluate in the kernel) -/

/-- Python `s.strip()`. -/
def pyStrip (s : String) : String :=
  String.mk (((s.data.dropWhile Char.isWhitespace).reverse.dropWhile
    Char.isWhitespace).reverse)

/-- Python `s.upper()` (ASCII, which is all the sources use). -/
def pyUpper (s : String) : String := String.mk (s.data.map Char.toUpper)

/-- Python `s.lower()` (ASCII). -/
def pyLower (s : String) : String := String.mk (s.data.map Char.toLower)

/-- Python `s.startswith(p)`. -/
def pyStartsWith (s p : String) : Bool := p.data.isPrefixOf s.data

/-- Membership of `sub` as a contiguous run of `s` (helper for `strContains`). -/
def listContains (s sub : List Char) : Bool :=
  if sub.isPrefixOf s then true
  else
    match s with
    | [] => false
    | _ :: t => listContains t sub

/-- Python `sub in s` on strings. -/
def strContains (s sub : String) : Bool := listContains s.data sub.data

/-- Numeric value of a string of decimal digits. -/
def digitsToNat (cs : List Char) : Nat :=
  cs.foldl (fun n c => n * 10 + (c.toNat - 48)) 0

/-! ## controls_parser.py — the `[CONTROLS]` subset parser

The source compiles the regex
`LINK\s+(\S+)\s+(OPEN|CLOSED)\s+IF\s+NODE\s+(\S+)\s+(BELOW|ABOVE)\s+([0-9eE\.\+\-]+)(?:\s+PRIORITY\s+([0-9]+))?`
with `re.IGNORECASE` and applies it with `pattern.match` (a prefix match
anchored at the start of the stripped line; trailing text is ignored).
For this particular pattern greedy matching without backtracking is
equivalent to the regex engine: every `\S+`/class token must be followed by
`\s+` or the end of the pattern, so shortening a greedy token always leaves a
non-space character where whitespace is required. The matcher below walks the
pattern left to right, greedily. -/

/-- Parsed capture groups of one regex match, before conversion. -/
structure RawMatch where
  link_id : String
  action : String
  node_id : String
  comparator : String
  threshold_tok : String
  priority_tok : Option String
deriving DecidableEq, Repr

/-- Parsed representation of a single EPANET control line
(`ControlRule` dataclass in controls_parser.py). -/
structure ControlRule where
  link_id : String
  node_id : String
  comparator : String
  action : String
  threshold : Rat
  priority : Int
  rule_index : Int
deriving DecidableEq, Repr

/-- Consume a case-insensitive literal from the head of the input. -/
def eatLit : List Char → List Char → Option (List Char)
  | [], s => some s
  | _ :: _, [] => none
  | c :: cs, x :: xs => if x.toLower = c.toLower then eatLit cs xs else none

/-- Consume `\s+` (at least one whitespace character), greedily. -/
def ws1 : List Char → Option (List Char)
  | [] => none
  | x :: xs =>
    if x.isWhitespace then some (xs.dropWhile Char.isWhitespace) else none

/-- Consume a maximal nonempty run of characters satisfying `p`
(a greedy character class such as `\S+` or `[0-9eE.+-]+`). -/
def token1 (p : Char → Bool) (s : List Char) : Option (String × List Char) :=
  let t := s.takeWhile p
  if t.isEmpty then none else some (String.mk t, s.dropWhile p)

/-- Consume one of the given case-insensitive alternatives, returning the
matched source characters. The alternatives used in the pattern start with
distinct letters, so first-match is equivalent to regex alternation. -/
def altTok : List String → List Char → Option (String × List Char)
  | [], _ => none
  | c :: cands, s =>
    match eatLit c.data s with
    | some rest => some (String.mk (s.take c.data.length), rest)
    | none => altTok cands s

/-- Character class `[0-9eE.+-]` of the threshold capture group. -/
def isThreshChar (c : Char) : Bool :=
  c.isDigit || c = 'e' || c = 'E' || c = '.' || c = '+' || c = '-'

/-- The optional tail `(?:\s+PRIORITY\s+([0-9]+))?`: the captured digit
string, or `none` when the group does not match (the pattern then simply
ends, since this is a prefix match). -/
def matchPriorityOpt (s : List Char) : Option String := do
  let s1 ← ws1 s
  let s2 ← eatLit "PRIORITY".data s1
  let s3 ← ws1 s2
  let (d, _) ← token1 Char.isDigit s3
  pure d

/-- Prefix-match the full control-line pattern against a stripped line. -/
def matchControlLine (line : String) : Option RawMatch := do
  let s1 ← eatLit "LINK".data line.data
  let s2 ← ws1 s1
  let (link_id, s3) ← token1 (fun c => !c.isWhitespace) s2
  let s4 ← ws1 s3
  let (action, s5) ← altTok ["OPEN", "CLOSED"] s4
  let s6 ← ws1 s5
  let s7 ← eatLit "IF".data s6
  let s8 ← ws1 s7
  let s9 ← eatLit "NODE".data s8
  let s10 ← ws1 s9
  let (node_id, s11) ← token1 (fun c => !c.isWhitespace) s10
  let s12 ← ws1 s11
  let (comparator, s13) ← altTok ["BELOW", "ABOVE"] s12
  let s14 ← ws1 s13
  let (ttok, s15) ← token1 isThreshChar s14
  pure ⟨link_id, action, node_id, comparator, ttok, matchPriorityOpt s15⟩

/-- Exponent tail of a Python float literal: `[+-]? digits+`, fully consumed. -/
def pyFloatExp (cs : List Char) : Option Int :=
  let (sgn, cs) : Int × List Char :=
    match cs with
    | '+' :: t => (1, t)
    | '-' :: t => (-1, t)
    | _ => (1, cs)
  let ds := cs.takeWhile Char.isDigit
  if ds.isEmpty || !(cs.dropWhile Char.isDigit).isEmpty then none
  else some (sgn * (digitsToNat ds : Int))

/-- Python `float(s)` on a string drawn from the characters `[0-9eE.+-]`:
`[+-]? (digits+ [. digits*] | . digits+) [(e|E) [+-]? digits+]`, the whole
string consumed, value taken exactly (rationals in place of binary doubles).
Returns `none` where CPython raises `ValueError`. -/
def pyFloat (s : String) : Option Rat :=
  let cs := s.data
  let (sgn, cs) : Int × List Char :=
    match cs with
    | '+' :: t => (1, t)
    | '-' :: t => (-1, t)
    | _ => (1, cs)
  let ip := cs.takeWhile Char.isDigit
  let cs1 := cs.dropWhile Char.isDigit
  let (fp, rest) : List Char × List Char :=
    match cs1 with
    | '.' :: t => (t.takeWhile Char.isDigit, t.dropWhile Char.isDigit)
    | _ => ([], cs1)
  -- a mantissa with no digit at all (lone ".", bare sign or exponent) is invalid
  if ip.isEmpty && fp.isEmpty then none
  else
    -- the exact value sgn·digits(ip++fp)·10^(exp) / 10^|fp|, as a rational
    let num : Int := sgn * (digitsToNat (ip ++ fp) : Int)
    match rest with
    | [] => some (mkRat num ((10 : Nat) ^ fp.length))
    | e :: t =>
      if e = 'e' ∨ e = 'E' then
        match pyFloatExp t with
        | none => none
        | some k =>
          if 0 ≤ k then
            some (mkRat (num * (((10 : Nat) ^ k.toNat : Nat) : Int))
              ((10 : Nat) ^ fp.length))
          else
            some (mkRat num ((10 : Nat) ^ fp.length * (10 : Nat) ^ (-k).toNat))
      else none

/-- Build a `ControlRule` from a regex match, the converted threshold and the
running index, exactly as the loop body of `parse_controls_from_inp` does:
keywords are uppercased, ids keep their case, and an absent `PRIORITY`
clause defaults to 0. -/
def ruleOfMatch (m : RawMatch) (th : Rat) (idx : Int) : ControlRule :=
  { link_id := m.link_id
    node_id := m.node_id
    comparator := pyUpper m.comparator
    action := pyUpper m.action
    threshold := th
    priority :=
      match m.priority_tok with
      | some p => (digitsToNat p.data : Int)
      | none => 0
    rule_index := idx }

/-- Line loop of `parse_controls_from_inp`: strip, skip blank and `;` lines,
enter on a line whose uppercase form starts with `[CONTROLS]`, stop at the
next `[` section line, skip lines before the section and non-matching lines,
and convert matched lines. `float(threshold)` can raise `ValueError` (the
captured token need not be a number), modelled as `.error`. -/
def parseLines : List String → Bool → Int → Except String (List ControlRule)
  | [], _, _ => .ok []
  | l :: rest, in_controls, idx =>
    let line := pyStrip l
    if line.data.isEmpty || pyStartsWith line ";" then
      parseLines rest in_controls idx
    else if pyStartsWith (pyUpper line) "[CONTROLS]" then
      parseLines rest true idx
    else if in_controls && pyStartsWith line "[" then
      .ok []
    else if !in_controls then
      parseLines rest in_controls idx
    else
      match matchControlLine line with
      | none => parseLines rest in_controls idx
      | some m =>
        match pyFloat m.threshold_tok with
        | none => .error ("could not convert string to float: " ++ m.threshold_tok)
        | some th =>
          match parseLines rest in_controls (idx + 1) with
          | .error e => .error e
          | .ok tail => .ok (ruleOfMatch m th idx :: tail)

/-- Entry point `parse_controls_from_inp`, over the document's lines
(the existence check on the path is outside the modelled core). -/
def parse_controls (doc : List String) : Except String (List ControlRule) :=
  parseLines doc false 0

instance {ε α : Type} [DecidableEq ε] [DecidableEq α] :
    DecidableEq (Except ε α) := fun a b =>
  match a, b with
  | .ok x, .ok y => decidable_of_iff (x = y) (by simp)
  | .error e, .error f => decidable_of_iff (e = f) (by simp)
  | .ok _, .error _ => isFalse fun h => Except.noConfusion h
  | .error _, .ok _ => isFalse fun h => Except.noConfusion h

/-! ## scada_node.py — ScadaServer -/

/-- One entry of a runtime `logic.rules` list (a plain dict in the source). -/
structure RuleD where
  node_id : String
  comparator : String
  threshold : Rat
  action : String
  priority : Int
  rule_index : Int
deriving DecidableEq, Repr

/-- The `logic` dict of a PLC config entry. Absent keys are `none`/`[]`
(`logic.get("rules") or []` collapses both absent and empty to `[]`). -/
structure Logic where
  mode : Option String
  node_id : Option String
  rules : List RuleD
  threshold : Option Rat
deriving DecidableEq, Repr

/-- One PLC entry of the runtime config consumed by ScadaServer and PlcLogic. -/
structure PlcCfg where
  id : String
  element_id : String
  ip : String
  role : String
  type : String
  logic : Logic
deriving DecidableEq, Repr

/-- Mutable state of a `ScadaServer` (the config list is fixed at
construction and passed separately). -/
structure ScadaState where
  latest_sensors : List (String × Rat)
  pump_commands : List (String × String)
  valve_commands : List (String × String)
  overrides : List (String × String)
deriving DecidableEq, Repr

/-- A request dict as consumed by `handle_plc_request`. Observation values
are typed by the keys the server reads: levels are numbers, the status is a
string. -/
structure Obs where
  level : Option Rat
  tank_level : Option Rat
  current_status : Option String
deriving DecidableEq, Repr

structure Request where
  plc_id : String
  role : String
  time : Rat
  observations : Obs
deriving DecidableEq, Repr

/-- A reply dict: `{"plc_id": ..., "responses": {...}}` plus an optional
`"error"` key. -/
structure Reply where
  plc_id : String
  responses : List (String × String)
  error : Option String
deriving DecidableEq, Repr

/-- Linear scan of `_find_plc_cfg`: first config whose id equals the
requested one. -/
def findPlcCfg : List PlcCfg → String → Option PlcCfg
  | [], _ => none
  | c :: rest, pid => if c.id = pid then some c else findPlcCfg rest pid

/-- The `_normalize_status` static method. -/
def normalizeStatus : Option String → Option String
  | none => none
  | some status =>
    let s := pyUpper status
    if s = "OPEN" ∨ s = "ON" ∨ s = "1" ∨ s = "TRUE" then some "OPEN"
    else if s = "CLOSED" ∨ s = "OFF" ∨ s = "0" ∨ s = "FALSE" then some "CLOSED"
    else none

/-- The `_last_command_for_element` method. -/
def lastCommandForElement (s : ScadaState) (element_id elem_type : String) :
    Option String :=
  if elem_type = "pump" then normalizeStatus (dlookup s.pump_commands element_id)
  else if elem_type = "valve" then
    normalizeStatus (dlookup s.valve_commands element_id)
  else none

/-- Python `a or b` on optional strings (an empty string is falsy). -/
def pyOrStr (a b : Option String) : Option String :=
  match a with
  | some s => if s = "" then b else some s
  | none => b

/-- Condition test of one rule in `_select_rule_action`:
`BELOW` means `level < threshold`, `ABOVE` means `level > threshold`, any
other comparator never fires. -/
def ruleFires (level : Rat) (r : RuleD) : Bool :=
  let c := pyUpper r.comparator
  if c = "BELOW" then decide (level < r.threshold)
  else if c = "ABOVE" then decide (level > r.threshold)
  else false

/-- The `matching` list of `_select_rule_action`:
`(priority, rule_index, action)` triples of the rules whose condition holds,
in rule order. -/
def matchingTriples (rules : List RuleD) (level : Rat) :
    List (Int × Int × String) :=
  rules.filterMap fun r =>
    if ruleFires level r then some (r.priority, r.rule_index, pyUpper r.action)
    else none

/-- Sort key of the `max(...)` call: the first two tuple components. -/
def tkey (t : Int × Int × String) : Int × Int := (t.1, t.2.1)

/-- Strict lexicographic `>` on `(priority, rule_index)` keys, as Python
compares the key tuples. -/
def keyGt (a b : Int × Int) : Bool :=
  decide (b.1 < a.1) || ((a.1 == b.1) && decide (b.2 < a.2))

/-- Python `max(x :: xs, key=tkey)`: left fold that replaces the current
maximum only on a strictly greater key, so the first of equal-key elements
wins. -/
def pyMaxLex (x : Int × Int × String) (xs : List (Int × Int × String)) :
    Int × Int × String :=
  xs.foldl (fun best y => if keyGt (tkey y) (tkey best) then y else best) x

/-- The `_select_rule_action` method. -/
def selectRuleAction (rules : List RuleD) (level : Rat)
    (default_action : Option String) : Option String :=
  match matchingTriples rules level with
  | [] => default_action
  | x :: xs => some (pyMaxLex x xs).2.2

/-- Python truthiness of the optional `node_id` string. -/
def truthyStr : Option String → Bool
  | none => false
  | some s => !(s == "")

/-- Level resolution of `_dispatch_actuator_logic`: the incoming
observation's `level`, else the sensor cache at the logic's node id. -/
def levelFor (s : ScadaState) (logic : Logic) (obs : Obs) : Option Rat :=
  match obs.level with
  | some l => some l
  | none =>
    if truthyStr logic.node_id then
      dlookup s.latest_sensors (logic.node_id.getD "")
    else none

/-- Fallback of `_dispatch_actuator_logic`: the last command issued for the
element, else the normalized current physical status. -/
def fallbackFor (s : ScadaState) (cfg : PlcCfg) (obs : Obs) : Option String :=
  pyOrStr (lastCommandForElement s cfg.element_id cfg.type)
    (normalizeStatus obs.current_status)

/-- The `_dispatch_actuator_logic` method, covering both the rule-list path
and the legacy single-mode path. -/
def dispatchActuatorLogic (s : ScadaState) (cfg : PlcCfg) (obs : Obs) :
    Option String :=
  let logic := cfg.logic
  let level := levelFor s logic obs
  let fallback := fallbackFor s cfg obs
  if logic.rules ≠ [] then
    match level with
    | none => fallback
    | some l => selectRuleAction logic.rules l fallback
  else
    let mode := logic.mode
    let threshold := logic.threshold.getD 0
    match level with
    | none => fallback
    | some l =>
      if mode = some "open_if_below" then
        if l < threshold then some "OPEN" else fallback
      else if mode = some "close_if_below" then
        if l < threshold then some "CLOSED" else fallback
      else if mode = some "open_if_above" then
        if l > threshold then some "OPEN" else fallback
      else if mode = some "close_if_above" then
        if l > threshold then some "CLOSED" else fallback
      else fallback

/-- Level read by `_ingest_sensor`: the legacy `tank_level` key first, then
`level`. -/
def pyLevelOf (obs : Obs) : Option Rat :=
  match obs.tank_level with
  | some l => some l
  | none => obs.level

/-- The `_ingest_sensor` method: only configs of type `"tank"` feed the
sensor cache, keyed by the config's `element_id`. -/
def ingestSensor (s : ScadaState) (cfg : PlcCfg) (obs : Obs) : ScadaState :=
  if cfg.type = "tank" then
    match pyLevelOf obs with
    | some l =>
      { s with latest_sensors := dinsert s.latest_sensors cfg.element_id l }
    | none => s
  else s

/-- The demo override window at the top of `handle_plc_request`: inside the
open interval `(10000, 15000)` force `PLC_PUMP_1` to `OFF`, otherwise pop
that key. -/
def windowUpdate (t : Rat) (ov : List (String × String)) :
    List (String × String) :=
  if 10000 < t ∧ t < 15000 then dinsert ov "PLC_PUMP_1" "OFF"
  else derase ov "PLC_PUMP_1"

/-- The `handle_plc_request` method: returns the reply and the successor
server state. -/
def handle_plc_request (cfgs : List PlcCfg) (s : ScadaState) (req : Request) :
    Reply × ScadaState :=
  let s1 : ScadaState := { s with overrides := windowUpdate req.time s.overrides }
  match findPlcCfg cfgs req.plc_id with
  | none => (⟨req.plc_id, [], some "unknown_plc"⟩, s1)
  | some cfg =>
    if req.role = "sensor" then
      (⟨req.plc_id, [], none⟩, ingestSensor s1 cfg req.observations)
    else if req.role = "actuator" ∧ cfg.type = "pump" then
      let cmd := dispatchActuatorLogic s1 cfg req.observations
      let s2 : ScadaState :=
        match cmd with
        | some c =>
          { s1 with pump_commands := dinsert s1.pump_commands cfg.element_id c }
        | none => s1
      let resp : List (String × String) :=
        match dlookup s2.overrides req.plc_id with
        | some ov => [("override_action", ov)]
        | none =>
          match cmd with
          | some c => [("pump_command", c)]
          | none => []
      (⟨req.plc_id, resp, none⟩, s2)
    else if req.role = "actuator" ∧ cfg.type = "valve" then
      let cmd := dispatchActuatorLogic s1 cfg req.observations
      let s2 : ScadaState :=
        match cmd with
        | some c =>
          { s1 with valve_commands := dinsert s1.valve_commands cfg.element_id c }
        | none => s1
      let resp : List (String × String) :=
        match dlookup s2.overrides req.plc_id with
        | some ov => [("override_action", ov)]
        | none =>
          match cmd with
          | some c => [("valve_setting", c)]
          | none => []
      (⟨req.plc_id, resp, none⟩, s2)
    else (⟨req.plc_id, [], some "unknown_role"⟩, s1)

/-! ## plc_node.py — PlcLogic.get_actuator_effect -/

/-- The `get_actuator_effect` method of `PlcLogic`, over the agent's config
and its stored last reply. In the source the pump block falls through to the
valve check when neither response key is present; the element type being a
single string, that is the if/else cascade below. -/
def get_actuator_effect (cfg : PlcCfg) (last_reply : Reply) :
    List (String × String) :=
  if cfg.role ≠ "actuator" then []
  else
    let responses := last_reply.responses
    let element_id := cfg.element_id
    if cfg.type = "pump" then
      match dlookup responses "override_action" with
      | some v => [(element_id, v)]
      | none =>
        match dlookup responses "pump_command" with
        | some v => [(element_id, v)]
        | none => []
    else if cfg.type = "valve" then
      match dlookup responses "override_action" with
      | some v => [(element_id, v)]
      | none =>
        match dlookup responses "valve_setting" with
        | some v => [(element_id, v)]
        | none => []
    else []

/-! ## runtime_plc_builder.py — build_runtime_plc_config

The builder consults the external `wntr.network.WaterNetworkModel` only for
the class names of links and nodes; that collaborator is abstracted as a pair
of functions. The `sensor_nodes` collection is a Python `set`, whose
iteration order is implementation-defined (hash-based, and varying across
interpreter runs under hash randomization); the embedding therefore takes
the set's iteration order as an explicit parameter `setOrder`, applied to
the set's contents listed in first-insertion order. -/

/-- Abstraction of the wntr network model: class names of links and nodes. -/
structure NetModel where
  linkClassName : String → String
  nodeClassName : String → String

/-- The `_infer_element_type` helper. -/
def inferElementType (m : NetModel) (link_id : String) : String :=
  let klass := pyLower (m.linkClassName link_id)
  if strContains klass "pump" then "pump"
  else if strContains klass "valve" then "valve"
  else "link"

/-- The `_node_type` helper. -/
def nodeType (m : NetModel) (node_id : String) : String :=
  let klass := pyLower (m.nodeClassName node_id)
  if strContains klass "tank" then "tank"
  else if strContains klass "reservoir" then "reservoir"
  else "junction"

/-- A minimal user-supplied PLC entry (`id` and `element_id` are required by
the builder's subscripts, `ip` is read with a default). -/
structure UserPlc where
  id : String
  element_id : String
  ip : Option String
deriving DecidableEq, Repr

/-- The user config: arbitrary SCADA settings copied verbatim, plus the
minimal PLC roster. -/
structure UserConfig where
  scada : List (String × String)
  plcs : List UserPlc
deriving Repr

/-- The runtime config returned by the builder. -/
structure RuntimeConfig where
  scada : List (String × String)
  plcs : List PlcCfg
deriving Repr

/-- The dict comprehension `{plc["element_id"]: plc for plc in plcs}`. -/
def userByElem (u : UserConfig) : List (String × UserPlc) :=
  u.plcs.foldl (fun d p => dinsert d p.element_id p) []

/-- `rules_by_link.setdefault(link_id, []).append(ctl)`: append to the
group in place, or append a new group at the end. -/
def dappendRule : List (String × List ControlRule) → String → ControlRule →
    List (String × List ControlRule)
  | [], k, v => [(k, [v])]
  | (k', vs) :: rest, k, v =>
    if k' = k then (k', vs ++ [v]) :: rest else (k', vs) :: dappendRule rest k v

/-- Grouping of the parsed controls by link id, in first-seen link order
(Python dicts preserve insertion order). -/
def groupByLink (ctls : List ControlRule) : List (String × List ControlRule) :=
  ctls.foldl (fun d c => dappendRule d c.link_id c) []

/-- Conversion of a parsed rule into the `logic_rules` dict entry. -/
def ruleToDict (r : ControlRule) : RuleD :=
  { node_id := r.node_id
    comparator := r.comparator
    threshold := r.threshold
    action := r.action
    priority := r.priority
    rule_index := r.rule_index }

/-- The actuator `plc_entry` built for one link group. -/
def mkActuatorPlc (m : NetModel) (ube : List (String × UserPlc))
    (link_id : String) (rules : List ControlRule) : PlcCfg :=
  let minimal : UserPlc :=
    match dlookup ube link_id with
    | some p => p
    | none => ⟨"PLC_" ++ link_id, link_id, some "10.0.0.250"⟩
  { id := minimal.id
    element_id := minimal.element_id
    ip := minimal.ip.getD "10.0.0.250"
    role := "actuator"
    type := inferElementType m link_id
    logic :=
      { mode := some "rule_list"
        node_id := rules.head?.map (fun r => r.node_id)
        rules := rules.map ruleToDict
        threshold := none } }

/-- The actuator portion of the runtime roster, one entry per link group in
group (first-seen) order. -/
def buildActuators (m : NetModel) (u : UserConfig) (ctls : List ControlRule) :
    List PlcCfg :=
  (groupByLink ctls).map fun g => mkActuatorPlc m (userByElem u) g.1 g.2

/-- First-seen deduplication, the insertion order of a Python set or dict. -/
def firstSeen (xs : List String) : List String :=
  xs.foldl (fun acc x => if x ∈ acc then acc else acc ++ [x]) []

/-- Contents of the `sensor_nodes` set: the node ids of all grouped rules,
listed in the order `sensor_nodes.update(...)` first inserted them (group by
group). The set's own iteration order is applied on top of this list by the
builder's `setOrder` parameter. -/
def sensorNodes (ctls : List ControlRule) : List String :=
  firstSeen
    (((groupByLink ctls).map fun g => g.2.map fun r => r.node_id).flatten)

/-- The synthesized sensor entry for a conditioning node, where `n` is
`len(runtime_plcs)` at the moment of the append (the address is
`10.0.1.{n+10}`). -/
def mkSensorPlc (m : NetModel) (node_id : String) (n : Nat) : PlcCfg :=
  { id := "PLC_SENSOR_" ++ node_id
    element_id := node_id
    ip := "10.0.1." ++ toString (n + 10)
    role := "sensor"
    type := nodeType m node_id
    logic :=
      { mode := some "report_level"
        node_id := some node_id
        rules := []
        threshold := none } }

/-- Body of `build_runtime_plc_config` after parsing: actuator entries for
each link group, then sensor entries for the conditioning nodes in the
set-iteration order `so`, skipping nodes already covered by an explicit
sensor entry (a check against the roster built so far, which at that point
contains only actuators). -/
def buildFromControls (so : List String → List String) (m : NetModel)
    (u : UserConfig) (ctls : List ControlRule) : RuntimeConfig :=
  let acts := buildActuators m u ctls
  let existing := (acts.filter fun p => p.role == "sensor").map
    fun p => p.element_id
  let plcs := (so (sensorNodes ctls)).foldl
    (fun acc node_id =>
      if node_id ∈ existing then acc
      else acc ++ [mkSensorPlc m node_id acc.length])
    acts
  { scada := u.scada, plcs := plcs }

/-- The `build_runtime_plc_config` function: parse the document's controls,
then assemble the runtime roster. Propagates the parser's possible
`ValueError`. -/
def build_runtime_plc_config (so : List String → List String) (m : NetModel)
    (u : UserConfig) (doc : List String) : Except String RuntimeConfig :=
  match parse_controls doc with
  | .error e => .error e
  | .ok ctls => .ok (buildFromControls so m u ctls)

/-- Element ids of a built roster (projection used to state ordering
facts about build results). -/
def rosterIds : Except String RuntimeConfig → List String
  | .error _ => []
  | .ok c => c.plcs.map fun p => p.element_id

/-! ## Association-list lemmas -/

theorem dlookup_dinsert_self {α : Type} (d : List (String × α)) (k : String)
    (v : α) : dlookup (dinsert d k v) k = some v := by
  induction d with
  | nil => simp [dinsert, dlookup]
  | cons hd tl ih =>
    obtain ⟨k', v'⟩ := hd
    by_cases h : k' = k
    · simp only [dinsert]
      rw [if_pos h]
      simp [dlookup]
    · simp only [dinsert]
      rw [if_neg h]
      simp only [dlookup]
      rw [if_neg h]
      exact ih

theorem dlookup_eq_none_of_not_mem {α : Type} (d : List (String × α))
    (k : String) (h : k ∉ d.map Prod.fst) : dlookup d k = none := by
  induction d with
  | nil => rfl
  | cons hd tl ih =>
    obtain ⟨k', v'⟩ := hd
    simp only [List.map_cons, List.mem_cons] at h
    push_neg at h
    have hne : ¬ k' = k := fun hk => h.1 hk.symm
    simp only [dlookup]
    rw [if_neg hne]
    exact ih h.2

theorem dlookup_derase_self {α : Type} (d : List (String × α)) (k : String)
    (hnd : (d.map Prod.fst).Nodup) : dlookup (derase d k) k = none := by
  induction d with
  | nil => rfl
  | cons hd tl ih =>
    obtain ⟨k', v'⟩ := hd
    simp only [List.map_cons, List.nodup_cons] at hnd
    by_cases h : k' = k
    · simp only [derase]
      rw [if_pos h]
      rw [← h]
      exact dlookup_eq_none_of_not_mem tl k' hnd.1
    · simp only [derase]
      rw [if_neg h]
      simp only [dlookup]
      rw [if_neg h]
      exact ih hnd.2

/-! ## The max-by-key selection of `_select_rule_action` -/

theorem keyGt_iff (a b : Int × Int) :
    keyGt a b = true ↔ b.1 < a.1 ∨ (a.1 = b.1 ∧ b.2 < a.2) := by
  simp [keyGt, Bool.or_eq_true, Bool.and_eq_true, decide_eq_true_eq, beq_iff_eq]

theorem keyGt_asymm {a b : Int × Int} (h : keyGt a b = true) :
    keyGt b a = false := by
  rw [keyGt_iff] at h
  rw [Bool.eq_false_iff, Ne, keyGt_iff]
  omega

/-- Python `max` with a strictly dominant element: the left fold that keeps
the current maximum unless the next key is strictly greater returns the
element whose key strictly dominates every other element of the list. -/
theorem pyMaxLex_eq_of_dominant (t : Int × Int × String) :
    ∀ (xs : List (Int × Int × String)) (b : Int × Int × String),
      (b = t ∨ t ∈ xs) →
      (∀ u, (u = b ∨ u ∈ xs) → u ≠ t → keyGt (tkey t) (tkey u) = true) →
      pyMaxLex b xs = t := by
  intro xs
  induction xs with
  | nil =>
    intro b hmem _
    rcases hmem with h | h
    · exact h
    · cases h
  | cons y ys ih =>
    intro b hmem hdom
    have hstep : pyMaxLex b (y :: ys) =
        pyMaxLex (if keyGt (tkey y) (tkey b) then y else b) ys := rfl
    rw [hstep]
    by_cases hcond : keyGt (tkey y) (tkey b) = true
    · rw [if_pos hcond]
      refine ih y ?_ ?_
      · by_cases hyt : y = t
        · exact Or.inl hyt
        · rcases hmem with hbt | hmem2
          · exfalso
            have hgt := hdom y (Or.inr (List.mem_cons_self y ys)) hyt
            rw [hbt] at hcond
            have hfalse := keyGt_asymm hcond
            rw [hgt] at hfalse
            simp at hfalse
          · rcases List.mem_cons.mp hmem2 with hty | hts
            · exact Or.inl hty.symm
            · exact Or.inr hts
      · intro u hu hut
        refine hdom u ?_ hut
        rcases hu with h | h
        · exact Or.inr (List.mem_cons.mpr (Or.inl h))
        · exact Or.inr (List.mem_cons.mpr (Or.inr h))
    · rw [if_neg hcond]
      refine ih b ?_ ?_
      · rcases hmem with hbt | hmem2
        · exact Or.inl hbt
        · rcases List.mem_cons.mp hmem2 with hty | hts
          · by_cases hbt : b = t
            · exact Or.inl hbt
            · exfalso
              have hgt := hdom b (Or.inl rfl) hbt
              rw [hty] at hgt
              exact hcond hgt
          · exact Or.inr hts
      · intro u hu hut
        refine hdom u ?_ hut
        rcases hu with h | h
        · exact Or.inl h
        · exact Or.inr (List.mem_cons.mpr (Or.inr h))

/-- C1. If at least one rule fires at the given level, the rule whose
`(priority, rule_index)` key strictly dominates every other firing rule's
key is the one whose (uppercased) action `_select_rule_action` returns:
highest priority wins and ties break towards the highest `rule_index`. The
selection is a pure function of `(rules, level, default)`, hence
deterministic. -/
theorem scada_select_highest (rules : List RuleD) (level : Rat)
    (fallback : Option String) (r : RuleD) (hr : r ∈ rules)
    (hf : ruleFires level r = true)
    (hdom : ∀ u ∈ matchingTriples rules level,
      u ≠ (r.priority, r.rule_index, pyUpper r.action) →
      keyGt (r.priority, r.rule_index) (tkey u) = true) :
    selectRuleAction rules level fallback = some (pyUpper r.action) := by
  have hmemT : (r.priority, r.rule_index, pyUpper r.action) ∈
      matchingTriples rules level := by
    unfold matchingTriples
    rw [List.mem_filterMap]
    exact ⟨r, hr, by simp [hf]⟩
  rw [selectRuleAction]
  cases hM : matchingTriples rules level with
  | nil => rw [hM] at hmemT; cases hmemT
  | cons x xs =>
    rw [hM] at hmemT hdom
    have hmax := pyMaxLex_eq_of_dominant
      (r.priority, r.rule_index, pyUpper r.action) xs x
      (by
        rcases List.mem_cons.mp hmemT with h | h
        · exact Or.inl h.symm
        · exact Or.inr h)
      (by
        intro u hu hut
        refine hdom u ?_ hut
        rcases hu with h | h
        · exact List.mem_cons.mpr (Or.inl h)
        · exact List.mem_cons.mpr (Or.inr h))
    show some (pyMaxLex x xs).2.2 = some (pyUpper r.action)
    rw [hmax]

/-! ## Concrete fixtures used by witnesses and counterexamples -/

/-- Two rules on one pump link, conditioned on tank T1. -/
def demoRules : List RuleD :=
  [⟨"T1", "BELOW", 2, "OPEN", 1, 0⟩, ⟨"T1", "BELOW", 2, "CLOSED", 5, 1⟩]

/-- An actuator (pump) agent config. -/
def demoPumpCfg : PlcCfg :=
  ⟨"PLC_PUMP_1", "P1", "10.0.0.1", "actuator", "pump",
    ⟨some "rule_list", some "T1", demoRules, none⟩⟩

/-- A tank sensor agent config. -/
def demoTankCfg : PlcCfg :=
  ⟨"PLC_TANK_1", "T1", "10.0.0.2", "sensor", "tank",
    ⟨some "report_level", some "T1", [], none⟩⟩

/-- A junction sensor agent config (as the builder synthesizes for a
conditioning node that is neither a tank nor a reservoir). -/
def demoJunctionCfg : PlcCfg :=
  ⟨"PLC_J1", "J1", "10.0.0.3", "sensor", "junction",
    ⟨some "report_level", some "J1", [], none⟩⟩

/-- An empty coordinator state. -/
def emptyScada : ScadaState := ⟨[], [], [], []⟩

/-- C1 witness: two rules on the same link both fire at level 1; the
priority-5 rule declared second wins over the priority-1 rule. -/
theorem scada_select_highest_witness :
    ruleFires 1 ⟨"T1", "BELOW", 2, "CLOSED", 5, 1⟩ = true ∧
    selectRuleAction
      [⟨"T1", "BELOW", 2, "OPEN", 1, 0⟩, ⟨"T1", "BELOW", 2, "CLOSED", 5, 1⟩]
      1 none = some "CLOSED" := by
  constructor
  · decide
  · have h := scada_select_highest
      [⟨"T1", "BELOW", 2, "OPEN", 1, 0⟩, ⟨"T1", "BELOW", 2, "CLOSED", 5, 1⟩]
      1 none ⟨"T1", "BELOW", 2, "CLOSED", 5, 1⟩
      (by decide) (by decide) (by decide)
    exact h

/-! ## Frame lemmas for handle_plc_request -/

theorem ingestSensor_overrides (s : ScadaState) (cfg : PlcCfg) (obs : Obs) :
    (ingestSensor s cfg obs).overrides = s.overrides := by
  unfold ingestSensor
  split
  · split <;> rfl
  · rfl

theorem ingestSensor_pump_commands (s : ScadaState) (cfg : PlcCfg) (obs : Obs) :
    (ingestSensor s cfg obs).pump_commands = s.pump_commands := by
  unfold ingestSensor
  split
  · split <;> rfl
  · rfl

theorem ingestSensor_valve_commands (s : ScadaState) (cfg : PlcCfg) (obs : Obs) :
    (ingestSensor s cfg obs).valve_commands = s.valve_commands := by
  unfold ingestSensor
  split
  · split <;> rfl
  · rfl

/-- The override map after any request is a function of the request's time
alone: the window update applied to the previous override map. No branch of
`handle_plc_request` writes `overrides` after the window check. -/
theorem handle_overrides_eq (cfgs : List PlcCfg) (s : ScadaState)
    (req : Request) :
    (handle_plc_request cfgs s req).2.overrides =
      windowUpdate req.time s.overrides := by
  unfold handle_plc_request
  cases hfind : findPlcCfg cfgs req.plc_id with
  | none => rfl
  | some cfg =>
    simp only
    split
    · exact ingestSensor_overrides _ _ _
    · split
      · cases dispatchActuatorLogic
          { s with overrides := windowUpdate req.time s.overrides } cfg
          req.observations <;> rfl
      · split
        · cases dispatchActuatorLogic
            { s with overrides := windowUpdate req.time s.overrides } cfg
            req.observations <;> rfl
        · rfl

theorem windowUpdate_lookup_in {t : Rat} (ov : List (String × String))
    (h : 10000 < t ∧ t < 15000) :
    dlookup (windowUpdate t ov) "PLC_PUMP_1" = some "OFF" := by
  unfold windowUpdate
  rw [if_pos h]
  exact dlookup_dinsert_self ov _ _

theorem windowUpdate_lookup_out {t : Rat} (ov : List (String × String))
    (h : ¬(10000 < t ∧ t < 15000)) (hnd : (ov.map Prod.fst).Nodup) :
    dlookup (windowUpdate t ov) "PLC_PUMP_1" = none := by
  unfold windowUpdate
  rw [if_neg h]
  exact dlookup_derase_self ov _ hnd

/-- C2. The demo override is a function of the request's time only: the
resulting override map is exactly `windowUpdate req.time` of the previous
one; `PLC_PUMP_1` maps to `OFF` precisely inside the open interval
`(10000, 15000)` and is absent outside it; and whenever the (post-update)
override map holds an entry for the requesting actuator agent, the reply's
responses carry that `override_action` instead of the evaluated command. -/
theorem handle_override_window (cfgs : List PlcCfg) (s : ScadaState)
    (req : Request) :
    ((handle_plc_request cfgs s req).2.overrides =
      windowUpdate req.time s.overrides) ∧
    (10000 < req.time ∧ req.time < 15000 →
      dlookup (handle_plc_request cfgs s req).2.overrides "PLC_PUMP_1" =
        some "OFF") ∧
    (¬(10000 < req.time ∧ req.time < 15000) →
      (s.overrides.map Prod.fst).Nodup →
      dlookup (handle_plc_request cfgs s req).2.overrides "PLC_PUMP_1" =
        none) ∧
    (∀ cfg v, findPlcCfg cfgs req.plc_id = some cfg →
      req.role = "actuator" → (cfg.type = "pump" ∨ cfg.type = "valve") →
      dlookup (windowUpdate req.time s.overrides) req.plc_id = some v →
      (handle_plc_request cfgs s req).1.responses = [("override_action", v)]) := by
  refine ⟨handle_overrides_eq cfgs s req, ?_, ?_, ?_⟩
  · intro h
    rw [handle_overrides_eq cfgs s req]
    exact windowUpdate_lookup_in s.overrides h
  · intro h hnd
    rw [handle_overrides_eq cfgs s req]
    exact windowUpdate_lookup_out s.overrides h hnd
  · intro cfg v hfind hrole htype hov
    unfold handle_plc_request
    rw [hfind]
    simp only
    rw [if_neg (by rw [hrole]; decide)]
    rcases htype with hty | hty
    · rw [if_pos ⟨hrole, hty⟩]
      simp only
      cases hcmd : dispatchActuatorLogic
        { s with overrides := windowUpdate req.time s.overrides } cfg
        req.observations <;>
        simp only [hcmd] <;> rw [hov]
    · rw [if_neg (fun hc => by rw [hty] at hc; exact absurd hc.2 (by decide))]
      rw [if_pos ⟨hrole, hty⟩]
      simp only
      cases hcmd : dispatchActuatorLogic
        { s with overrides := windowUpdate req.time s.overrides } cfg
        req.observations <;>
        simp only [hcmd] <;> rw [hov]

/-- C2 witness: the window bounds are strictly exclusive — no override at
time 10000, override at 10001 (and the actuator reply then carries
`override_action` instead of the evaluated command), none again at 15000. -/
theorem handle_override_window_witness :
    dlookup (handle_plc_request [demoPumpCfg] emptyScada
      ⟨"PLC_PUMP_1", "actuator", 10000, ⟨some 1, none, none⟩⟩).2.overrides
      "PLC_PUMP_1" = none ∧
    dlookup (handle_plc_request [demoPumpCfg] emptyScada
      ⟨"PLC_PUMP_1", "actuator", 10001, ⟨some 1, none, none⟩⟩).2.overrides
      "PLC_PUMP_1" = some "OFF" ∧
    dlookup (handle_plc_request [demoPumpCfg] emptyScada
      ⟨"PLC_PUMP_1", "actuator", 15000, ⟨some 1, none, none⟩⟩).2.overrides
      "PLC_PUMP_1" = none ∧
    (handle_plc_request [demoPumpCfg] emptyScada
      ⟨"PLC_PUMP_1", "actuator", 10001, ⟨some 1, none, none⟩⟩).1.responses =
      [("override_action", "OFF")] := by
  refine ⟨?_, ?_, ?_, ?_⟩
  · exact (handle_override_window [demoPumpCfg] emptyScada
      ⟨"PLC_PUMP_1", "actuator", 10000, ⟨some 1, none, none⟩⟩).2.2.1
      (by decide) (by decide)
  · exact (handle_override_window [demoPumpCfg] emptyScada
      ⟨"PLC_PUMP_1", "actuator", 10001, ⟨some 1, none, none⟩⟩).2.1
      (by decide)
  · exact (handle_override_window [demoPumpCfg] emptyScada
      ⟨"PLC_PUMP_1", "actuator", 15000, ⟨some 1, none, none⟩⟩).2.2.1
      (by decide) (by decide)
  · exact (handle_override_window [demoPumpCfg] emptyScada
      ⟨"PLC_PUMP_1", "actuator", 10001, ⟨some 1, none, none⟩⟩).2.2.2
      demoPumpCfg "OFF" (by decide) rfl (Or.inl rfl) (by decide)

/-- C3. With a nonempty rule list, whenever no level is available (neither
in the incoming observation nor in the sensor cache) or no rule's condition
holds at the available level, `_dispatch_actuator_logic` returns the
fallback: the last command issued for the element if any, else the
last-observed physical status normalized to OPEN/CLOSED. The function is
total, so a no-signal step never raises and never forces a state change. -/
theorem dispatch_no_signal_fallback (s : ScadaState) (cfg : PlcCfg)
    (obs : Obs) (hrules : cfg.logic.rules ≠ [])
    (h : levelFor s cfg.logic obs = none ∨
      ∃ l, levelFor s cfg.logic obs = some l ∧
        matchingTriples cfg.logic.rules l = []) :
    dispatchActuatorLogic s cfg obs = fallbackFor s cfg obs := by
  unfold dispatchActuatorLogic
  rw [if_pos hrules]
  rcases h with hnone | ⟨l, hl, hempty⟩
  · rw [hnone]
  · rw [hl]
    show selectRuleAction cfg.logic.rules l (fallbackFor s cfg obs) = _
    unfold selectRuleAction
    rw [hempty]

/-- C3 witness: a pump with a cached last command, an observation carrying
no level, and an empty sensor cache — the dispatcher returns the cached
command `CLOSED`. -/
theorem dispatch_no_signal_fallback_witness :
    demoPumpCfg.logic.rules ≠ [] ∧
    levelFor ⟨[], [("P1", "CLOSED")], [], []⟩ demoPumpCfg.logic
      ⟨none, none, none⟩ = none ∧
    dispatchActuatorLogic ⟨[], [("P1", "CLOSED")], [], []⟩ demoPumpCfg
      ⟨none, none, none⟩ = some "CLOSED" := by
  refine ⟨by decide, by decide, ?_⟩
  have h := dispatch_no_signal_fallback ⟨[], [("P1", "CLOSED")], [], []⟩
    demoPumpCfg ⟨none, none, none⟩ (by decide) (Or.inl (by decide))
  rw [h]
  decide

/-- C7. A request whose agent id is not in the roster gets a reply with
empty responses and error `unknown_plc`; a request from a known agent whose
role is neither `sensor` nor `actuator` gets empty responses and error
`unknown_role`. Both are returned, never raised. -/
theorem handle_unknown_ids (cfgs : List PlcCfg) (s : ScadaState)
    (req : Request) :
    (findPlcCfg cfgs req.plc_id = none →
      (handle_plc_request cfgs s req).1 =
        ⟨req.plc_id, [], some "unknown_plc"⟩) ∧
    (∀ cfg, findPlcCfg cfgs req.plc_id = some cfg → req.role ≠ "sensor" →
      req.role ≠ "actuator" →
      (handle_plc_request cfgs s req).1 =
        ⟨req.plc_id, [], some "unknown_role"⟩) := by
  constructor
  · intro h
    unfold handle_plc_request
    rw [h]
  · intro cfg hfind hsen hact
    unfold handle_plc_request
    rw [hfind]
    simp only
    rw [if_neg hsen, if_neg (fun hc => hact hc.1), if_neg (fun hc => hact hc.1)]

/-- C7 witness: an unknown agent id and a known agent with an unknown role. -/
theorem handle_unknown_ids_witness :
    findPlcCfg [demoPumpCfg] "NOBODY" = none ∧
    (handle_plc_request [demoPumpCfg] emptyScada
      ⟨"NOBODY", "actuator", 0, ⟨none, none, none⟩⟩).1 =
      ⟨"NOBODY", [], some "unknown_plc"⟩ ∧
    (handle_plc_request [demoPumpCfg] emptyScada
      ⟨"PLC_PUMP_1", "operator", 0, ⟨none, none, none⟩⟩).1 =
      ⟨"PLC_PUMP_1", [], some "unknown_role"⟩ := by
  refine ⟨by decide, ?_, ?_⟩
  · exact (handle_unknown_ids [demoPumpCfg] emptyScada
      ⟨"NOBODY", "actuator", 0, ⟨none, none, none⟩⟩).1 (by decide)
  · exact (handle_unknown_ids [demoPumpCfg] emptyScada
      ⟨"PLC_PUMP_1", "operator", 0, ⟨none, none, none⟩⟩).2
      demoPumpCfg (by decide) (by decide) (by decide)

/-- C8 counterexample: a known sensor agent of element type `junction`
reporting `level = 5` — `_ingest_sensor` writes nothing into the sensor
cache (the source ingests only for configs of type `tank`), so the claim
that every sensor-role request from a known agent is ingested fails. The
reply still has empty responses and no error. -/
theorem sensor_ingest_counterexample :
    findPlcCfg [demoJunctionCfg] "PLC_J1" = some demoJunctionCfg ∧
    demoJunctionCfg.element_id = "J1" ∧
    (handle_plc_request [demoJunctionCfg] emptyScada
      ⟨"PLC_J1", "sensor", 500, ⟨some 5, none, none⟩⟩).2.latest_sensors
      = [] ∧
    dlookup (handle_plc_request [demoJunctionCfg] emptyScada
      ⟨"PLC_J1", "sensor", 500, ⟨some 5, none, none⟩⟩).2.latest_sensors
      "J1" ≠ some 5 := by
  decide

/-- C8 (amended). For a sensor-role request from a known agent: the reply
always has empty responses and no error; when the agent's element type is
`tank`, the available level (legacy `tank_level` checked before `level`) is
ingested into the sensor cache under the agent's `element_id`; with no
level, or for a non-tank sensor agent, the cache is unchanged. -/
theorem handle_sensor_ingest (cfgs : List PlcCfg) (s : ScadaState)
    (req : Request) (cfg : PlcCfg)
    (hfind : findPlcCfg cfgs req.plc_id = some cfg)
    (hrole : req.role = "sensor") :
    (handle_plc_request cfgs s req).1 = ⟨req.plc_id, [], none⟩ ∧
    (cfg.type = "tank" → ∀ l, pyLevelOf req.observations = some l →
      (handle_plc_request cfgs s req).2.latest_sensors =
        dinsert s.latest_sensors cfg.element_id l) ∧
    (cfg.type = "tank" → pyLevelOf req.observations = none →
      (handle_plc_request cfgs s req).2.latest_sensors = s.latest_sensors) ∧
    (cfg.type ≠ "tank" →
      (handle_plc_request cfgs s req).2.latest_sensors = s.latest_sensors) := by
  unfold handle_plc_request
  rw [hfind]
  simp only
  rw [if_pos hrole]
  refine ⟨rfl, ?_, ?_, ?_⟩
  · intro hty l hl
    show (ingestSensor _ cfg req.observations).latest_sensors = _
    unfold ingestSensor
    rw [if_pos hty, hl]
  · intro hty hl
    show (ingestSensor _ cfg req.observations).latest_sensors = _
    unfold ingestSensor
    rw [if_pos hty, hl]
  · intro hty
    show (ingestSensor _ cfg req.observations).latest_sensors = _
    unfold ingestSensor
    rw [if_neg hty]

/-- C8 witness (for the amended claim): a known tank sensor agent reporting
`level = 5` has it ingested under its element id `T1`. -/
theorem handle_sensor_ingest_witness :
    (handle_plc_request [demoTankCfg] emptyScada
      ⟨"PLC_TANK_1", "sensor", 500, ⟨some 5, none, none⟩⟩).1 =
      ⟨"PLC_TANK_1", [], none⟩ ∧
    (handle_plc_request [demoTankCfg] emptyScada
      ⟨"PLC_TANK_1", "sensor", 500, ⟨some 5, none, none⟩⟩).2.latest_sensors =
      [("T1", 5)] := by
  have h := handle_sensor_ingest [demoTankCfg] emptyScada
    ⟨"PLC_TANK_1", "sensor", 500, ⟨some 5, none, none⟩⟩ demoTankCfg
    (by decide) rfl
  refine ⟨h.1, ?_⟩
  rw [h.2.1 rfl 5 rfl]
  decide

/-- C9. On an `unknown_plc` reply the sensor cache and both command caches
are unchanged, but the override map has still been updated or cleared as a
function of the request's time — the window check runs before the agent id
is validated. -/
theorem handle_unknown_plc_frame (cfgs : List PlcCfg) (s : ScadaState)
    (req : Request) (h : findPlcCfg cfgs req.plc_id = none) :
    (handle_plc_request cfgs s req).1.error = some "unknown_plc" ∧
    (handle_plc_request cfgs s req).2.latest_sensors = s.latest_sensors ∧
    (handle_plc_request cfgs s req).2.pump_commands = s.pump_commands ∧
    (handle_plc_request cfgs s req).2.valve_commands = s.valve_commands ∧
    (handle_plc_request cfgs s req).2.overrides =
      windowUpdate req.time s.overrides := by
  unfold handle_plc_request
  rw [h]
  exact ⟨rfl, rfl, rfl, rfl, rfl⟩

/-- C9 witness: a request from an unknown agent inside the override window
leaves every cache unchanged yet visibly mutates the override map. -/
theorem handle_unknown_plc_frame_witness :
    (handle_plc_request [demoPumpCfg] emptyScada
      ⟨"NOBODY", "actuator", 12000, ⟨none, none, none⟩⟩).1.error =
      some "unknown_plc" ∧
    (handle_plc_request [demoPumpCfg] emptyScada
      ⟨"NOBODY", "actuator", 12000, ⟨none, none, none⟩⟩).2.latest_sensors =
      [] ∧
    (handle_plc_request [demoPumpCfg] emptyScada
      ⟨"NOBODY", "actuator", 12000, ⟨none, none, none⟩⟩).2.overrides =
      [("PLC_PUMP_1", "OFF")] ∧
    (handle_plc_request [demoPumpCfg] emptyScada
      ⟨"NOBODY", "actuator", 12000, ⟨none, none, none⟩⟩).2.overrides ≠
      emptyScada.overrides := by
  have h := handle_unknown_plc_frame [demoPumpCfg] emptyScada
    ⟨"NOBODY", "actuator", 12000, ⟨none, none, none⟩⟩ (by decide)
  refine ⟨h.1, h.2.1, ?_, by decide⟩
  rw [h.2.2.2.2]
  decide

/-- C10. `get_actuator_effect` returns either the empty map or a singleton
keyed by the agent's own `element_id`; any non-actuator role (in
particular a sensor) always gets the empty map. -/
theorem actuator_effect_own_element (cfg : PlcCfg) (reply : Reply) :
    (get_actuator_effect cfg reply = [] ∨
      ∃ v, get_actuator_effect cfg reply = [(cfg.element_id, v)]) ∧
    (cfg.role = "sensor" → get_actuator_effect cfg reply = []) := by
  constructor
  · unfold get_actuator_effect
    split
    · exact Or.inl rfl
    · simp only
      split
      · split
        · exact Or.inr ⟨_, rfl⟩
        · split
          · exact Or.inr ⟨_, rfl⟩
          · exact Or.inl rfl
      · split
        · split
          · exact Or.inr ⟨_, rfl⟩
          · split
            · exact Or.inr ⟨_, rfl⟩
            · exact Or.inl rfl
        · exact Or.inl rfl
  · intro hrole
    unfold get_actuator_effect
    rw [if_pos (by rw [hrole]; decide)]

/-- C10 witness: a pump agent's command lands on its own element id, and a
sensor agent yields the empty effect. -/
theorem actuator_effect_own_element_witness :
    get_actuator_effect demoPumpCfg
      ⟨"PLC_PUMP_1", [("pump_command", "ON")], none⟩ = [("P1", "ON")] ∧
    get_actuator_effect demoTankCfg
      ⟨"PLC_TANK_1", [("pump_command", "ON")], none⟩ = [] := by
  refine ⟨by decide, ?_⟩
  exact (actuator_effect_own_element demoTankCfg
    ⟨"PLC_TANK_1", [("pump_command", "ON")], none⟩).2 rfl

/-! ## Parser theorems -/

/-- Successful parses assign `rule_index` positionally: starting the loop at
counter `idx`, the i-th emitted rule carries index `idx + i`. -/
theorem parseLines_rule_index (doc : List String) :
    ∀ (inc : Bool) (idx : Int) (rules : List ControlRule),
      parseLines doc inc idx = .ok rules →
      ∀ i (h : i < rules.length), (rules.get ⟨i, h⟩).rule_index = idx + i := by
  induction doc with
  | nil =>
    intro inc idx rules h i hi
    simp only [parseLines] at h
    cases h
    simp at hi
  | cons l rest ih =>
    intro inc idx rules h i hi
    simp only [parseLines] at h
    split at h
    · exact ih _ _ _ h i hi
    · split at h
      · exact ih _ _ _ h i hi
      · split at h
        · cases h
          simp at hi
        · split at h
          · exact ih _ _ _ h i hi
          · split at h
            · exact ih _ _ _ h i hi
            · split at h
              · cases h
              · split at h
                · cases h
                · cases h
                  rename_i x2 m hm x1 th hth x0 tail hrec
                  cases i with
                  | zero =>
                    show (ruleOfMatch m th idx).rule_index = idx + 0
                    simp [ruleOfMatch]
                  | succ n =>
                    have hn : n < tail.length := by
                      simpa using Nat.lt_of_succ_lt_succ hi
                    have := ih _ _ _ hrec n hn
                    show (tail.get ⟨n, hn⟩).rule_index = idx + (n + 1)
                    rw [this]
                    omega

/-- C6. Each parsed rule's `rule_index` equals the number of previously
matched lines (the output being in match order, the rule at position `i` has
index `i`, regardless of skipped lines), and a matched line without a
`PRIORITY` clause yields priority 0. -/
theorem parser_rule_index_and_priority :
    (∀ doc rules, parse_controls doc = .ok rules →
      ∀ i (h : i < rules.length), (rules.get ⟨i, h⟩).rule_index = (i : Int)) ∧
    (∀ (m : RawMatch) (th : Rat) (idx : Int), m.priority_tok = none →
      (ruleOfMatch m th idx).priority = 0) := by
  constructor
  · intro doc rules h i hi
    have := parseLines_rule_index doc false 0 rules h i hi
    simpa using this
  · intro m th idx hp
    simp [ruleOfMatch, hp]

/-- C6 witness: a document with a skipped line between two matched lines
still numbers the matched lines 0 and 1, and a match without a priority
clause defaults to priority 0. -/
theorem parser_rule_index_witness :
    parse_controls
      ["[CONTROLS]", "LINK P1 OPEN IF NODE T1 BELOW 2", "junk",
        "LINK P2 CLOSED IF NODE T2 ABOVE 3 PRIORITY 4"] =
      .ok [⟨"P1", "T1", "BELOW", "OPEN", 2, 0, 0⟩,
        ⟨"P2", "T2", "ABOVE", "CLOSED", 3, 4, 1⟩] ∧
    (([⟨"P1", "T1", "BELOW", "OPEN", 2, 0, 0⟩,
        ⟨"P2", "T2", "ABOVE", "CLOSED", 3, 4, 1⟩] :
      List ControlRule).get ⟨1, by decide⟩).rule_index = 1 ∧
    (ruleOfMatch ⟨"P1", "OPEN", "T1", "BELOW", "2", none⟩ 2 7).priority = 0 := by
  refine ⟨by rfl, ?_, ?_⟩
  · exact parser_rule_index_and_priority.1
      ["[CONTROLS]", "LINK P1 OPEN IF NODE T1 BELOW 2", "junk",
        "LINK P2 CLOSED IF NODE T2 ABOVE 3 PRIORITY 4"]
      [⟨"P1", "T1", "BELOW", "OPEN", 2, 0, 0⟩,
        ⟨"P2", "T2", "ABOVE", "CLOSED", 3, 4, 1⟩]
      (by rfl) 1 (by decide)
  · exact parser_rule_index_and_priority.2
      ⟨"P1", "OPEN", "T1", "BELOW", "2", none⟩ 2 7 rfl

/-- C5 (code evaluation at the failing input). The line
`LINK P1 OPEN IF NODE T1 BELOW eee` sits inside the controls section and its
threshold token `eee` consists only of characters of the regex class
`[0-9eE.+-]`, so the pattern matches, and `float("eee")` then raises
`ValueError` — the parser crashes on a malformed line instead of skipping
it. -/
theorem parse_raises_on_bad_threshold :
    parse_controls ["[CONTROLS]", "LINK P1 OPEN IF NODE T1 BELOW eee"] =
      .error "could not convert string to float: eee" := by
  rfl

/-! ## Builder theorems -/

theorem dlookup_dinsert {α : Type} (d : List (String × α)) (k k' : String)
    (v : α) :
    dlookup (dinsert d k v) k' = if k' = k then some v else dlookup d k' := by
  induction d with
  | nil =>
    simp only [dinsert, dlookup]
    by_cases h : k' = k
    · rw [if_pos h.symm, if_pos h]
    · rw [if_neg (fun hk => h hk.symm), if_neg h]
  | cons hd tl ih =>
    obtain ⟨k0, v0⟩ := hd
    simp only [dinsert]
    by_cases h : k0 = k
    · rw [if_pos h]
      simp only [dlookup]
      by_cases h2 : k' = k
      · rw [if_pos h2.symm, if_pos h2]
      · rw [if_neg (fun hk => h2 hk.symm), if_neg h2,
          if_neg (fun hk => h2 ((h.symm.trans hk).symm))]
  -- with k0 = k and k' ≠ k, the old head key also differs from k'
    · rw [if_neg h]
      simp only [dlookup]
      by_cases h0 : k0 = k'
      · rw [if_pos h0]
        have : ¬ k' = k := fun hk => h (h0.trans hk)
        rw [if_neg this, if_pos h0]
      · rw [if_neg h0, if_neg h0, ih]

/-- Any entry found in the user-roster index has the looked-up key as its
`element_id` (the dict comprehension keys each entry by its own
`element_id`). -/
theorem userByElem_lookup (u : UserConfig) (k : String) (p : UserPlc)
    (h : dlookup (userByElem u) k = some p) : p.element_id = k := by
  have main : ∀ (l : List UserPlc) (d : List (String × UserPlc)),
      (∀ k' p', dlookup d k' = some p' → p'.element_id = k') →
      ∀ k' p',
        dlookup (l.foldl (fun d p => dinsert d p.element_id p) d) k' = some p' →
        p'.element_id = k' := by
    intro l
    induction l with
    | nil => intro d hd k' p' hl; exact hd k' p' hl
    | cons q qs ih =>
      intro d hd k' p' hl
      refine ih (dinsert d q.element_id q) ?_ k' p' hl
      intro k2 p2 h2
      rw [dlookup_dinsert] at h2
      by_cases hk : k2 = q.element_id
      · rw [if_pos hk] at h2
        cases h2
        exact hk.symm
      · rw [if_neg hk] at h2
        exact hd k2 p2 h2
  refine main u.plcs [] ?_ k p h
  intro k' p' hl
  cases hl

theorem dappendRule_keys (d : List (String × List ControlRule)) (k : String)
    (v : ControlRule) :
    (dappendRule d k v).map Prod.fst =
      if k ∈ d.map Prod.fst then d.map Prod.fst
      else d.map Prod.fst ++ [k] := by
  induction d with
  | nil => simp [dappendRule]
  | cons hd tl ih =>
    obtain ⟨k0, vs⟩ := hd
    by_cases h : k0 = k
    · simp only [dappendRule]
      rw [if_pos h]
      simp [List.mem_cons, h]
    · simp only [dappendRule]
      rw [if_neg h]
      simp only [List.map_cons, ih]
      by_cases hmem : k ∈ tl.map Prod.fst
      · rw [if_pos hmem, if_pos (List.mem_cons.mpr (Or.inr hmem))]
      · rw [if_neg hmem,
          if_neg (fun hc => by
            rcases List.mem_cons.mp hc with hc1 | hc2
            · exact h hc1.symm
            · exact hmem hc2)]
        simp

/-- The group keys of `rules_by_link` are the links in first-seen order. -/
theorem groupByLink_keys (ctls : List ControlRule) :
    (groupByLink ctls).map Prod.fst = firstSeen (ctls.map fun c => c.link_id) := by
  have main : ∀ (l : List ControlRule) (d : List (String × List ControlRule)),
      ((l.foldl (fun d c => dappendRule d c.link_id c) d).map Prod.fst) =
        (l.map fun c => c.link_id).foldl
          (fun acc x => if x ∈ acc then acc else acc ++ [x]) (d.map Prod.fst) := by
    intro l
    induction l with
    | nil => intro d; rfl
    | cons c cs ih =>
      intro d
      simp only [List.foldl_cons, List.map_cons]
      rw [ih (dappendRule d c.link_id c), dappendRule_keys]
  exact main ctls []

/-- An actuator entry's `element_id` is its group's link id, whether the user
supplied the entry or it was synthesized. -/
theorem mkActuatorPlc_element_id (m : NetModel) (u : UserConfig)
    (link_id : String) (rules : List ControlRule) :
    (mkActuatorPlc m (userByElem u) link_id rules).element_id = link_id := by
  unfold mkActuatorPlc
  cases hl : dlookup (userByElem u) link_id with
  | none => rfl
  | some p => exact userByElem_lookup u link_id p hl

theorem buildActuators_ids (m : NetModel) (u : UserConfig)
    (ctls : List ControlRule) :
    (buildActuators m u ctls).map (fun p => p.element_id) =
      firstSeen (ctls.map fun c => c.link_id) := by
  unfold buildActuators
  rw [List.map_map, ← groupByLink_keys]
  apply List.map_congr_left
  intro g _
  exact mkActuatorPlc_element_id m u g.1 g.2

theorem buildActuators_roles (m : NetModel) (u : UserConfig)
    (ctls : List ControlRule) :
    ∀ p ∈ buildActuators m u ctls, p.role = "actuator" := by
  intro p hp
  unfold buildActuators at hp
  rw [List.mem_map] at hp
  obtain ⟨g, _, he⟩ := hp
  rw [← he]
  rfl

theorem buildActuators_no_sensors (m : NetModel) (u : UserConfig)
    (ctls : List ControlRule) :
    (buildActuators m u ctls).filter (fun p => p.role == "sensor") = [] := by
  rw [List.filter_eq_nil_iff]
  intro p hp
  have := buildActuators_roles m u ctls p hp
  simp [this]

/-- Appending synthesized sensors with the roster length at each step: the
result is the initial roster followed by the nodes enumerated from the
initial length. -/
theorem foldl_append_ix (m : NetModel) :
    ∀ (ns : List String) (init : List PlcCfg),
      ns.foldl (fun acc n => acc ++ [mkSensorPlc m n acc.length]) init =
        init ++ (ns.enumFrom init.length).map fun p => mkSensorPlc m p.2 p.1 := by
  intro ns
  induction ns with
  | nil => intro init; simp
  | cons n ns ih =>
    intro init
    simp only [List.foldl_cons]
    rw [ih]
    simp [List.enumFrom, List.append_assoc]

/-- C4 (amended). Actuator agents appear in first-seen link order. The full
roster is the actuator list followed by one synthesized sensor per
conditioning node, in the set-iteration order `so`, the k-th appended sensor
being built with the roster size at its insertion (which fixes its placeholder
address `10.0.1.(size+10)`); for a fixed `so` the builder is a pure function
of its inputs, but `so` — Python's set iteration order — is not part of the
inputs, so the sensor order is not the first-encountered order in general. -/
theorem builder_roster_shape (so : List String → List String) (m : NetModel)
    (u : UserConfig) (ctls : List ControlRule) :
    ((buildActuators m u ctls).map (fun p => p.element_id) =
      firstSeen (ctls.map fun c => c.link_id)) ∧
    ((buildFromControls so m u ctls).plcs =
      buildActuators m u ctls ++
        ((so (sensorNodes ctls)).enumFrom
          (buildActuators m u ctls).length).map
          fun p => mkSensorPlc m p.2 p.1) := by
  refine ⟨buildActuators_ids m u ctls, ?_⟩
  unfold buildFromControls
  simp only [buildActuators_no_sensors, List.map_nil]
  have hfn : (fun (acc : List PlcCfg) (node_id : String) =>
      if node_id ∈ ([] : List String) then acc
      else acc ++ [mkSensorPlc m node_id acc.length]) =
      fun acc n => acc ++ [mkSensorPlc m n acc.length] := by
    funext acc n
    simp
  rw [hfn, foldl_append_ix]

/-- Concrete builder inputs for the ordering counterexample: two rules on
one link conditioned on two distinct nodes, first seen as T1 then T2. -/
def orderDoc : List String :=
  ["[CONTROLS]", "LINK P1 OPEN IF NODE T1 BELOW 2",
    "LINK P1 CLOSED IF NODE T2 ABOVE 5"]

/-- A network model in which every link is a pump and every node a tank. -/
def demoNet : NetModel := ⟨fun _ => "Pump", fun _ => "Tank"⟩

/-- An empty user roster. -/
def emptyUser : UserConfig := ⟨[], []⟩

/-- C4 counterexample. Python iterates `sensor_nodes` as a `set`, whose
iteration order is implementation-defined (hash-based, varying across
interpreter runs under hash randomization) — it is abstracted here as the
`setOrder` parameter. Reversal is one admissible iteration order, and under
it the synthesized sensor agents come out as `[T2, T1]` instead of the
first-encountered order `[T1, T2]` (with their placeholder addresses swapped
accordingly), so the builder's roster order and addresses are not
determined by the inputs the claim names. -/
theorem builder_order_counterexample :
    rosterIds (build_runtime_plc_config List.reverse demoNet emptyUser
      orderDoc) = ["P1", "T2", "T1"] ∧
    rosterIds (build_runtime_plc_config (fun l => l) demoNet emptyUser
      orderDoc) = ["P1", "T1", "T2"] ∧
    (["P1", "T2", "T1"] : List String) ≠ ["P1", "T1", "T2"] := by
  refine ⟨by rfl, by rfl, by decide⟩

end DhalsimSE
